import Mathlib

/-!
Shallow embedding of the judgarr punishment decision engine and
size-aggregation pipeline, together with theorems checking the
natural-language specification against the code.

Source files embedded here:
- `src/judgarr/core/punishments/levels.py` (`PunishmentLevel`)
- `src/judgarr/config/models/punishment.py` (threshold / cooldown /
  request-limit configuration with its defaults)
- `src/judgarr/core/punishments/calculator.py` (`PunishmentCalculator`)
- `src/judgarr/core/punishments/manager.py` (`PunishmentManager`)
- `src/judgarr/database/manager.py` and `src/judgarr/database/schema.py`
  (the SQLite store, modelled as lists of rows)
- `src/judgarr/core/user_management.py` (`UserStatus`, `UserManager`)
- `src/judgarr/core/tracking/calculator.py` (`SizeCalculator`)
- `src/judgarr/api/overseerr/client.py` (`OverseerrClient` pagination)

Modelling conventions: Python `datetime` values are abstracted to
integers (one unit = one day, so `timedelta(days=n)` is `+ n`); Python
`float` configuration thresholds are embedded as rationals (the default
values 500/750/1000/1500 GB and all products with 2^30 are exactly
representable, so no rounding behaviour is lost); Python integer floor
division `//` is `Int.fdiv`; exceptions are `Except String`; `None` is
`Option.none`.
-/

namespace Judgarr

/-- Embedding of `PunishmentLevel` from `core/punishments/levels.py`:
an `int` enum with NONE=0, WARNING=1, MILD=2, SEVERE=3, MAXIMUM=4. -/
inductive PunishmentLevel where
  | NONE
  | WARNING
  | MILD
  | SEVERE
  | MAXIMUM
deriving DecidableEq, Repr

/-- The numeric value of the Python `int` enum member. -/
def PunishmentLevel.toNat : PunishmentLevel → Nat
  | .NONE => 0
  | .WARNING => 1
  | .MILD => 2
  | .SEVERE => 3
  | .MAXIMUM => 4

instance : LE PunishmentLevel := ⟨fun a b => a.toNat ≤ b.toNat⟩

instance : LT PunishmentLevel := ⟨fun a b => a.toNat < b.toNat⟩

instance (a b : PunishmentLevel) : Decidable (a ≤ b) :=
  inferInstanceAs (Decidable (a.toNat ≤ b.toNat))

instance (a b : PunishmentLevel) : Decidable (a < b) :=
  inferInstanceAs (Decidable (a.toNat < b.toNat))

theorem PunishmentLevel.le_of_not_lt {a b : PunishmentLevel} (h : ¬ a < b) : b ≤ a :=
  Nat.le_of_not_lt h

theorem PunishmentLevel.none_le (a : PunishmentLevel) : PunishmentLevel.NONE ≤ a :=
  Nat.zero_le _

/-- Embedding of `ThresholdsConfig` from `config/models/punishment.py`:
data-usage thresholds in GB (Python floats, embedded as rationals). -/
structure ThresholdsConfig where
  warning : ℚ
  mild : ℚ
  severe : ℚ
  maximum : ℚ
deriving DecidableEq

/-- The pydantic field defaults: warning 500, mild 750, severe 1000,
maximum 1500 (GB). -/
def ThresholdsConfig.default : ThresholdsConfig := ⟨500, 750, 1000, 1500⟩

/-- Embedding of `CooldownConfig`: cooldown periods in days. -/
structure CooldownConfig where
  warning : ℤ
  mild : ℤ
  severe : ℤ
  maximum : ℤ
deriving DecidableEq

/-- The pydantic field defaults: warning 3, mild 5, severe 7, maximum 14. -/
def CooldownConfig.default : CooldownConfig := ⟨3, 5, 7, 14⟩

/-- Embedding of `RequestLimitConfig`: request-limit reductions, validated
by pydantic to be non-positive and at least -100. -/
structure RequestLimitConfig where
  warning : ℤ
  mild : ℤ
  severe : ℤ
  maximum : ℤ
deriving DecidableEq

/-- The pydantic field defaults: warning 0, mild -5, severe -10, maximum -15. -/
def RequestLimitConfig.default : RequestLimitConfig := ⟨0, -5, -10, -15⟩

/-- Embedding of `PunishmentConfig` from `config/models/punishment.py`. -/
structure PunishmentConfig where
  tracking_period_days : ℤ
  thresholds : ThresholdsConfig
  cooldowns : CooldownConfig
  request_limits : RequestLimitConfig
deriving DecidableEq

/-- `PunishmentConfig()` with all pydantic defaults, as built by
`PunishmentCalculator.__init__` when no config is given. -/
def PunishmentConfig.default : PunishmentConfig :=
  ⟨30, ThresholdsConfig.default, CooldownConfig.default, RequestLimitConfig.default⟩

/-- `bytes_per_gb = 1024 * 1024 * 1024` from `PunishmentCalculator.__init__`. -/
def bytesPerGb : ℚ := 1024 * 1024 * 1024

/-- The `self.thresholds` dict of `PunishmentCalculator.__init__`, as the
association list the Python dict iterates over (insertion order WARNING,
MILD, SEVERE, MAXIMUM); each threshold is GB times `bytes_per_gb`. -/
def PunishmentConfig.thresholdPairs (cfg : PunishmentConfig) : List (PunishmentLevel × ℚ) :=
  [ (.WARNING, cfg.thresholds.warning * bytesPerGb),
    (.MILD, cfg.thresholds.mild * bytesPerGb),
    (.SEVERE, cfg.thresholds.severe * bytesPerGb),
    (.MAXIMUM, cfg.thresholds.maximum * bytesPerGb) ]

/-- The `self.cooldowns` dict lookup. The Python dict has no entry for
NONE; the lookup is only reached with a non-NONE level, so the NONE
branch here (0) is unreachable in the embedded call sites. -/
def PunishmentConfig.cooldownOf (cfg : PunishmentConfig) : PunishmentLevel → ℤ
  | .NONE => 0
  | .WARNING => cfg.cooldowns.warning
  | .MILD => cfg.cooldowns.mild
  | .SEVERE => cfg.cooldowns.severe
  | .MAXIMUM => cfg.cooldowns.maximum

/-- The `self.reductions` dict lookup (same remark about NONE). -/
def PunishmentConfig.reductionOf (cfg : PunishmentConfig) : PunishmentLevel → ℤ
  | .NONE => 0
  | .WARNING => cfg.request_limits.warning
  | .MILD => cfg.request_limits.mild
  | .SEVERE => cfg.request_limits.severe
  | .MAXIMUM => cfg.request_limits.maximum

/-- The threshold scan inside `determine_punishment_level`
(`calculator.py` lines 66-70): start from NONE and, iterating the
thresholds dict in insertion order, keep the last level whose threshold
is `<= total_data_bytes`. -/
def scanThresholds (cfg : PunishmentConfig) (total_data_bytes : ℤ) : PunishmentLevel :=
  cfg.thresholdPairs.foldl
    (fun acc p => if (total_data_bytes : ℚ) ≥ p.2 then p.1 else acc)
    PunishmentLevel.NONE

/-- Embedding of `PunishmentCalculator.determine_punishment_level`
(`calculator.py` lines 48-76). Note the Python guard
`if current_level and current_level > new_level` is falsy both for
`None` and for `PunishmentLevel.NONE` (value 0). -/
def determine_punishment_level (cfg : PunishmentConfig) (total_data_bytes : ℤ)
    (current_level : Option PunishmentLevel) : PunishmentLevel :=
  if current_level = some .MAXIMUM then .MAXIMUM
  else
    let new_level := scanThresholds cfg total_data_bytes
    match current_level with
    | some c => if c ≠ .NONE ∧ new_level < c then c else new_level
    | none => new_level

/-- The punishment record built by the calculator
(`database/models/UserPunishment`). Dates are integers (days); the
human-readable `reason` string (an f-string formatting the threshold in
GB) is not modelled — no claim refers to it. -/
structure UserPunishment where
  id : ℤ
  user_id : String
  level : PunishmentLevel
  start_date : ℤ
  end_date : ℤ
  cooldown_days : ℤ
  request_reduction : ℤ
  data_usage : ℤ
  is_active : Bool
deriving DecidableEq, Repr

/-- Embedding of `PunishmentCalculator.calculate_punishment`
(`calculator.py` lines 78-123); `now` stands for `datetime.now()`, and
`end_date = now + cooldown_days` embeds `now + timedelta(days=cooldown_days)`. -/
def calculate_punishment (cfg : PunishmentConfig) (user_id : String)
    (total_data_bytes : ℤ) (current_punishment : Option UserPunishment)
    (now : ℤ) : Option UserPunishment :=
  let current_level : Option PunishmentLevel :=
    match current_punishment with
    | some p => if p.is_active then some p.level else none
    | none => none
  let new_level := determine_punishment_level cfg total_data_bytes current_level
  if new_level = .NONE then none
  else
    let cooldown_days := cfg.cooldownOf new_level
    let request_reduction := cfg.reductionOf new_level
    some ⟨0, user_id, new_level, now, now + cooldown_days, cooldown_days,
          request_reduction, total_data_bytes, true⟩

/-- Spec-side reformulation for claim C2: the highest configured level
whose byte threshold is at most `total_data_bytes` (NONE when no
threshold is reached). -/
def highestExceededLevel (cfg : PunishmentConfig) (total_data_bytes : ℤ) : PunishmentLevel :=
  if (total_data_bytes : ℚ) ≥ cfg.thresholds.maximum * bytesPerGb then .MAXIMUM
  else if (total_data_bytes : ℚ) ≥ cfg.thresholds.severe * bytesPerGb then .SEVERE
  else if (total_data_bytes : ℚ) ≥ cfg.thresholds.mild * bytesPerGb then .MILD
  else if (total_data_bytes : ℚ) ≥ cfg.thresholds.warning * bytesPerGb then .WARNING
  else .NONE

theorem scanThresholds_eq_highestExceeded (cfg : PunishmentConfig) (total : ℤ) :
    scanThresholds cfg total = highestExceededLevel cfg total := by
  simp only [scanThresholds, PunishmentConfig.thresholdPairs, List.foldl,
    highestExceededLevel]

theorem PunishmentLevel.le_maximum (a : PunishmentLevel) : a ≤ PunishmentLevel.MAXIMUM := by
  cases a <;> decide

theorem PunishmentLevel.eq_maximum_of_maximum_le {a : PunishmentLevel}
    (h : PunishmentLevel.MAXIMUM ≤ a) : a = PunishmentLevel.MAXIMUM := by
  cases a <;> first | rfl | exact absurd h (by decide)

/-- C1: for every configuration, every total byte count and every current
punishment level, `determine_punishment_level` never returns a level
below the current one, and whenever the current level is strictly above
the level computed from the thresholds it returns the current level
unchanged — de-escalation never happens from a usage recalculation. -/
theorem determine_punishment_level_never_decreases (cfg : PunishmentConfig)
    (total : ℤ) (c : PunishmentLevel) :
    c ≤ determine_punishment_level cfg total (some c) ∧
      (scanThresholds cfg total < c →
        determine_punishment_level cfg total (some c) = c) := by
  unfold determine_punishment_level
  by_cases hc : c = PunishmentLevel.MAXIMUM
  · subst hc
    rw [if_pos rfl]
    exact ⟨Nat.le_refl _, fun _ => rfl⟩
  · rw [if_neg (by simpa using hc)]
    simp only
    by_cases hlt : scanThresholds cfg total < c
    · by_cases hn : c = PunishmentLevel.NONE
      · subst hn
        exact absurd hlt (Nat.not_lt_zero _)
      · rw [if_pos ⟨hn, hlt⟩]
        exact ⟨Nat.le_refl _, fun _ => rfl⟩
    · rw [if_neg (fun h => hlt h.2)]
      exact ⟨PunishmentLevel.le_of_not_lt hlt, fun h => absurd h hlt⟩

/-- Witness for C1 at a concrete input: with the default configuration,
zero usage and current level MILD, the result is at least MILD and in
fact exactly MILD (the computed level NONE is below MILD). -/
theorem determine_punishment_level_never_decreases_witness :
    PunishmentLevel.MILD ≤
        determine_punishment_level PunishmentConfig.default 0 (some .MILD) ∧
      determine_punishment_level PunishmentConfig.default 0 (some .MILD) =
        PunishmentLevel.MILD :=
  ⟨(determine_punishment_level_never_decreases PunishmentConfig.default 0 .MILD).1,
   (determine_punishment_level_never_decreases PunishmentConfig.default 0 .MILD).2
     (by
      rw [scanThresholds_eq_highestExceeded]
      have h0 : highestExceededLevel PunishmentConfig.default 0 = PunishmentLevel.NONE := by
        norm_num [highestExceededLevel, PunishmentConfig.default,
          ThresholdsConfig.default, bytesPerGb]
      rw [h0]
      decide)⟩

/-- C2: whenever the current level is absent or not above the computed
result, `determine_punishment_level` returns the highest configured
level whose byte threshold is at most `total_bytes` (last match wins in
the ascending scan, not the first); with the default thresholds and a
total of 900 GB the result is MILD; and with current level MAXIMUM the
result is MAXIMUM for every total. -/
theorem determine_punishment_level_highest_exceeded (cfg : PunishmentConfig)
    (total : ℤ) (current : Option PunishmentLevel) :
    ((∀ c, current = some c → c ≤ highestExceededLevel cfg total) →
        determine_punishment_level cfg total current =
          highestExceededLevel cfg total) ∧
      determine_punishment_level PunishmentConfig.default (900 * 2 ^ 30) none =
        PunishmentLevel.MILD ∧
      determine_punishment_level cfg total (some .MAXIMUM) = PunishmentLevel.MAXIMUM := by
  refine ⟨?_, ?_, ?_⟩
  · intro h
    unfold determine_punishment_level
    cases current with
    | none => simpa using scanThresholds_eq_highestExceeded cfg total
    | some c =>
      by_cases hm : c = PunishmentLevel.MAXIMUM
      · subst hm
        rw [if_pos rfl]
        exact (PunishmentLevel.eq_maximum_of_maximum_le (h _ rfl)).symm
      · rw [if_neg (by simpa using hm)]
        simp only
        have hsc := scanThresholds_eq_highestExceeded cfg total
        have hle : c ≤ scanThresholds cfg total := by
          rw [hsc]; exact h c rfl
        rw [if_neg (fun hand => (Nat.not_lt.mpr hle) hand.2)]
        exact hsc
  · rw [show determine_punishment_level PunishmentConfig.default (900 * 2 ^ 30) none =
        scanThresholds PunishmentConfig.default (900 * 2 ^ 30) from rfl,
      scanThresholds_eq_highestExceeded]
    norm_num [highestExceededLevel, PunishmentConfig.default,
      ThresholdsConfig.default, bytesPerGb]
  · unfold determine_punishment_level
    rw [if_pos rfl]

/-- Witness for C2 at a concrete input: with no current level the
hypothesis is vacuous, and at zero usage the function returns the
highest exceeded level (NONE). -/
theorem determine_punishment_level_highest_exceeded_witness :
    determine_punishment_level PunishmentConfig.default 0 none =
      highestExceededLevel PunishmentConfig.default 0 :=
  (determine_punishment_level_highest_exceeded PunishmentConfig.default 0 none).1
    (fun _ h => nomatch h)

/-- A row of the `punishments` table (`database/schema.py`); `level` is
the stored integer, dates are integers (days). -/
structure PunishmentRow where
  id : ℤ
  user_id : String
  level : ℤ
  start_date : ℤ
  end_date : ℤ
  cooldown_days : ℤ
  request_reduction : ℤ
  data_usage : ℤ
  is_active : Bool
  reason : Option String
deriving DecidableEq, Repr

/-- A row of the `requests` table (`database/schema.py`). -/
structure RequestRow where
  id : ℤ
  user_id : String
  media_id : String
  media_type : String
  request_date : ℤ
  size_bytes : ℤ
  status : String
deriving DecidableEq, Repr

/-- A row of the `user_stats` table (`database/schema.py`); `user_id` is
the primary key. -/
structure StatsRow where
  user_id : String
  username : String
  total_data_usage : ℤ
  total_requests : ℤ
  punishment_level : ℤ
  cooldown_days : ℤ
  request_limit : ℤ
  last_request_date : Option ℤ
  current_punishment_id : Option ℤ
deriving DecidableEq, Repr

/-- The SQLite store consumed through `DatabaseManager`: the three
tables as row lists, plus the AUTOINCREMENT counters that produce
`cursor.lastrowid`. -/
structure DB where
  punishments : List PunishmentRow
  requests : List RequestRow
  stats : List StatsRow
  next_punishment_id : ℤ
  next_request_id : ℤ
deriving DecidableEq, Repr

/-- `ORDER BY start_date DESC LIMIT 1` over a candidate row list: keep
the row with the greatest `start_date` (on ties the earlier row, a
deterministic refinement of SQLite's unspecified tie order). -/
def pickLatest (rows : List PunishmentRow) : Option PunishmentRow :=
  rows.foldl
    (fun acc r =>
      match acc with
      | none => some r
      | some b => if b.start_date < r.start_date then some r else some b)
    none

/-- The WHERE clause of `DatabaseManager.get_active_punishment`:
`user_id = ? AND is_active = 1`. -/
def activeFor (u : String) (r : PunishmentRow) : Bool :=
  r.user_id == u && r.is_active

/-- Embedding of `DatabaseManager.get_active_punishment`
(`database/manager.py` lines 330-367). -/
def DB.get_active_punishment (db : DB) (u : String) : Option PunishmentRow :=
  pickLatest (db.punishments.filter (activeFor u))

/-- Embedding of `DatabaseManager.create_punishment`
(`database/manager.py` lines 506-565): a bare INSERT into `punishments`
returning the new row — it does NOT deactivate prior active rows and
does not touch `user_stats`. -/
def DB.create_punishment (db : DB) (user_id : String) (level : ℤ)
    (start_date end_date cooldown_days request_reduction data_usage : ℤ)
    (is_active : Bool) (reason : Option String) : PunishmentRow × DB :=
  let row : PunishmentRow :=
    ⟨db.next_punishment_id, user_id, level, start_date, end_date,
     cooldown_days, request_reduction, data_usage, is_active, reason⟩
  (row,
   { db with
     punishments := db.punishments ++ [row]
     next_punishment_id := db.next_punishment_id + 1 })

/-- Embedding of `DatabaseManager.add_punishment`
(`database/manager.py` lines 260-328): first `UPDATE punishments SET
is_active = 0 WHERE user_id = ? AND is_active = 1`, then INSERT the new
row, then update `user_stats.current_punishment_id / punishment_level /
cooldown_days` for that user. -/
def DB.add_punishment (db : DB) (user_id : String) (level : ℤ)
    (start_date end_date cooldown_days request_reduction data_usage : ℤ)
    (is_active : Bool) (reason : Option String) : ℤ × DB :=
  let deactivated := db.punishments.map
    (fun r => if activeFor user_id r then { r with is_active := false } else r)
  let row : PunishmentRow :=
    ⟨db.next_punishment_id, user_id, level, start_date, end_date,
     cooldown_days, request_reduction, data_usage, is_active, reason⟩
  let newStats := db.stats.map
    (fun s =>
      if s.user_id == user_id then
        { s with
          current_punishment_id := some row.id
          punishment_level := level
          cooldown_days := cooldown_days }
      else s)
  (row.id,
   { punishments := deactivated ++ [row]
     requests := db.requests
     stats := newStats
     next_punishment_id := db.next_punishment_id + 1
     next_request_id := db.next_request_id })

/-- Embedding of `DatabaseManager.deactivate_punishment`
(`database/manager.py` lines 606-627): `UPDATE punishments SET
is_active = 0, reason = COALESCE(?, reason) WHERE user_id = ? AND
is_active = 1`. -/
def DB.deactivate_punishment (db : DB) (u : String) (reason : Option String) : DB :=
  { db with
    punishments := db.punishments.map
      (fun r =>
        if activeFor u r then
          { r with
            is_active := false
            reason := match reason with
              | some s => some s
              | none => r.reason }
        else r) }

/-- The pydantic `UserStats` model (`database/models.py`): the subset of
`user_stats` columns that `DatabaseManager.get_user_stats` reads back. -/
structure UserStats where
  user_id : String
  username : String
  total_data_usage : ℤ
  total_requests : ℤ
  punishment_level : ℤ
  cooldown_days : ℤ
  request_limit : ℤ
deriving DecidableEq, Repr

/-- `SELECT * FROM user_stats WHERE user_id = ?` (primary-key lookup):
the first row with the given `user_id`. -/
def lookupStats : List StatsRow → String → Option StatsRow
  | [], _ => none
  | s :: rest, u => if s.user_id == u then some s else lookupStats rest u

/-- Embedding of `DatabaseManager.get_user_stats`
(`database/manager.py` lines 418-450). -/
def DB.get_user_stats (db : DB) (u : String) : Option UserStats :=
  (lookupStats db.stats u).map
    (fun s => ⟨s.user_id, s.username, s.total_data_usage, s.total_requests,
               s.punishment_level, s.cooldown_days, s.request_limit⟩)

/-- The row update of `DatabaseManager.save_user_stats`: the six
non-key `user_stats` columns of its UPDATE statement
(`last_request_date` and `current_punishment_id` are untouched). -/
def applyStats (st : UserStats) (s : StatsRow) : StatsRow :=
  { s with
    username := st.username
    total_data_usage := st.total_data_usage
    total_requests := st.total_requests
    punishment_level := st.punishment_level
    cooldown_days := st.cooldown_days
    request_limit := st.request_limit }

/-- Embedding of `DatabaseManager.save_user_stats`
(`database/manager.py` lines 693-722): UPDATE of the six non-key
columns of the matching `user_stats` row. -/
def DB.save_user_stats (db : DB) (st : UserStats) : DB :=
  { db with
    stats := db.stats.map
      (fun s => if s.user_id == st.user_id then applyStats st s else s) }

/-- Embedding of `DatabaseManager.add_request`
(`database/manager.py` lines 112-183): upsert of `user_stats`
(insert with defaults on first sight, else accumulate usage and request
count), then INSERT into `requests`, returning `lastrowid`. -/
def DB.add_request (db : DB) (request : RequestRow) : ℤ × DB :=
  let db1 :=
    match lookupStats db.stats request.user_id with
    | none =>
      { db with
        stats := db.stats ++
          [(⟨request.user_id, "user_" ++ request.user_id, request.size_bytes,
            1, 0, 0, 10, none, none⟩ : StatsRow)] }
    | some _ =>
      { db with
        stats := db.stats.map
          (fun s : StatsRow =>
            if s.user_id == request.user_id then
              { s with
                total_data_usage := s.total_data_usage + request.size_bytes
                total_requests := s.total_requests + 1 }
            else s) }
  let row : RequestRow :=
    ⟨db.next_request_id, request.user_id, request.media_id,
     request.media_type, request.request_date, request.size_bytes,
     request.status⟩
  (db.next_request_id,
   { db1 with
     requests := db1.requests ++ [row]
     next_request_id := db.next_request_id + 1 })

/-- Fault oracle for the `try/except` in
`PunishmentManager.reset_punishment`: which persistence call (if any)
raises. `nofault` is the exception-free run; `onGet` makes
`db.get_active_punishment` raise; `onDeactivate` makes
`db.deactivate_punishment` raise (leaving the store unchanged). -/
inductive ResetFault where
  | nofault
  | onGet
  | onDeactivate
deriving DecidableEq, Repr

/-- Embedding of `PunishmentManager.reset_punishment`
(`core/punishments/manager.py` lines 141-168): returns True when there
is no active punishment (no side effect) or after deactivating the
active one; any exception from the two persistence calls is caught and
reported as False. -/
def PunishmentManager.reset_punishment (db : DB) (user_id : String)
    (reason : Option String) (fault : ResetFault) : Bool × DB :=
  match fault with
  | .onGet => (false, db)
  | .nofault | .onDeactivate =>
    match db.get_active_punishment user_id with
    | none => (true, db)
    | some _ =>
      match fault with
      | .onDeactivate => (false, db)
      | _ => (true, db.deactivate_punishment user_id reason)

/-- Embedding of `PunishmentManager.create_punishment`
(`core/punishments/manager.py` lines 170-215): when a stats row exists,
set its punishment level and cooldown and recompute
`request_limit = max(5, request_limit - request_limit * request_reduction // 100)`
(Python floor division, i.e. `Int.fdiv`), save, then insert the
punishment row through `DatabaseManager.create_punishment`. -/
def PunishmentManager.create_punishment (db : DB) (user_id : String)
    (level start_date end_date cooldown_days request_reduction data_usage : ℤ)
    (reason : String) : PunishmentRow × DB :=
  let db1 :=
    match db.get_user_stats user_id with
    | some stats =>
      db.save_user_stats
        { stats with
          punishment_level := level
          cooldown_days := cooldown_days
          request_limit :=
            max 5 (stats.request_limit -
              (stats.request_limit * request_reduction).fdiv 100) }
    | none => db
  db1.create_punishment user_id level start_date end_date cooldown_days
    request_reduction data_usage true (some reason)

/-- Embedding of the `UserStatus` read model
(`core/user_management.py` lines 12-61); the current punishment is the
row returned by `get_active_punishment`. -/
structure UserStatus where
  user_id : String
  total_requests : ℤ
  total_data_usage : ℤ
  current_punishment : Option PunishmentRow
  last_request_date : Option ℤ
deriving DecidableEq, Repr

/-- `UserStatus.is_punished`: an active punishment exists and
`datetime.now() < end_date`; `now` stands for `datetime.now()`. -/
def UserStatus.is_punished (s : UserStatus) (now : ℤ) : Bool :=
  match s.current_punishment with
  | none => false
  | some p => p.is_active && decide (now < p.end_date)

/-- `UserStatus.current_request_limit`: 100 (the default Overseerr
limit) unless punished, else `max(0, 100 - request_reduction)`. -/
def UserStatus.current_request_limit (s : UserStatus) (now : ℤ) : ℤ :=
  match s.current_punishment with
  | none => 100
  | some p =>
    if s.is_punished now then max 0 (100 - p.request_reduction) else 100

/-- The body of `UserManager.add_request` after the punishment check
(`core/user_management.py` lines 304-336): build a "pending" request,
insert it through `DatabaseManager.add_request`, bump the user's stats,
and return the request carrying the database-assigned id. (`lastrowid`
is never `None` after an INSERT, so the `request_id is None` early
return is unreachable and not modelled.) -/
def UserManager.addRequestBody (db : DB) (user_id media_id media_type : String)
    (size_bytes now : ℤ) : Except String RequestRow × DB :=
  let request : RequestRow :=
    ⟨0, user_id, media_id, media_type, now, size_bytes, "pending"⟩
  let res := db.add_request request
  let db2 :=
    match res.2.get_user_stats user_id with
    | some stats =>
      res.2.save_user_stats
        { stats with
          total_requests := stats.total_requests + 1
          total_data_usage := stats.total_data_usage + size_bytes }
    | none => res.2
  (.ok { request with id := res.1 }, db2)

/-- Embedding of `UserManager.add_request`
(`core/user_management.py` lines 278-336): raising
`ValueError("User has active punishment")` is modelled as the error
value, paired with the unchanged store (the exception fires before any
write). -/
def UserManager.add_request (db : DB) (user_id media_id media_type : String)
    (size_bytes now : ℤ) : Except String RequestRow × DB :=
  match db.get_active_punishment user_id with
  | some p =>
    if p.is_active then (.error "User has active punishment", db)
    else UserManager.addRequestBody db user_id media_id media_type size_bytes now
  | none => UserManager.addRequestBody db user_id media_id media_type size_bytes now

theorem pickLatest_aux_some (l : List PunishmentRow) :
    ∀ b : PunishmentRow,
      ∃ r, l.foldl
          (fun acc r =>
            match acc with
            | none => some r
            | some b => if b.start_date < r.start_date then some r else some b)
          (some b) = some r ∧ (r = b ∨ r ∈ l) := by
  induction l with
  | nil => exact fun b => ⟨b, rfl, Or.inl rfl⟩
  | cons a l ih =>
    intro b
    simp only [List.foldl_cons]
    by_cases h : b.start_date < a.start_date
    · rw [if_pos h]
      obtain ⟨r, hr, hmem⟩ := ih a
      exact ⟨r, hr, Or.inr (by
        cases hmem with
        | inl h => exact h ▸ List.mem_cons_self _ _
        | inr h => exact List.mem_cons_of_mem _ h)⟩
    · rw [if_neg h]
      obtain ⟨r, hr, hmem⟩ := ih b
      refine ⟨r, hr, ?_⟩
      cases hmem with
      | inl h => exact Or.inl h
      | inr h => exact Or.inr (List.mem_cons_of_mem _ h)

theorem pickLatest_eq_none_iff (l : List PunishmentRow) :
    pickLatest l = none ↔ l = [] := by
  cases l with
  | nil => simp [pickLatest]
  | cons a l =>
    simp only [pickLatest, List.foldl_cons]
    obtain ⟨r, hr, _⟩ := pickLatest_aux_some l a
    simp [hr]

theorem pickLatest_mem {l : List PunishmentRow} {r : PunishmentRow}
    (h : pickLatest l = some r) : r ∈ l := by
  cases l with
  | nil => exact absurd h (by simp [pickLatest])
  | cons a l =>
    simp only [pickLatest, List.foldl_cons] at h
    obtain ⟨r2, hr2, hmem⟩ := pickLatest_aux_some l a
    rw [hr2] at h
    obtain rfl : r2 = r := by injection h
    cases hmem with
    | inl h2 => exact h2 ▸ List.mem_cons_self _ _
    | inr h2 => exact List.mem_cons_of_mem _ h2

theorem get_active_punishment_activeFor {db : DB} {u : String} {p : PunishmentRow}
    (h : db.get_active_punishment u = some p) : activeFor u p = true := by
  have hmem := pickLatest_mem h
  exact (List.mem_filter.mp hmem).2

theorem get_active_punishment_is_active {db : DB} {u : String} {p : PunishmentRow}
    (h : db.get_active_punishment u = some p) : p.is_active = true := by
  have := get_active_punishment_activeFor h
  simp only [activeFor, Bool.and_eq_true] at this
  exact this.2

theorem deactivate_punishment_clears {db : DB} (u : String) (reason : Option String) :
    (db.deactivate_punishment u reason).get_active_punishment u = none := by
  rw [DB.get_active_punishment, pickLatest_eq_none_iff]
  rw [List.filter_eq_nil_iff]
  intro r hr
  simp only [DB.deactivate_punishment, List.mem_map] at hr
  obtain ⟨x, _, rfl⟩ := hr
  by_cases hx : activeFor u x = true
  · rw [if_pos hx]
    simp [activeFor]
  · rw [if_neg hx]
    exact fun hc => hx hc

/-- C8: `reset_punishment` is idempotent and best-effort. With no active
punishment it returns True with the store untouched (and, being a total
function, raises nothing); with an active punishment it returns True and
leaves the user without an active punishment; a persistence error in
either underlying call is caught and reported as False instead of
propagating. -/
theorem reset_punishment_spec (db : DB) (u : String) (reason : Option String) :
    (db.get_active_punishment u = none →
        PunishmentManager.reset_punishment db u reason .nofault = (true, db)) ∧
      (∀ p, db.get_active_punishment u = some p →
        (PunishmentManager.reset_punishment db u reason .nofault).1 = true ∧
          (PunishmentManager.reset_punishment db u reason .nofault).2.get_active_punishment u
            = none) ∧
      PunishmentManager.reset_punishment db u reason .onGet = (false, db) ∧
      (∀ p, db.get_active_punishment u = some p →
        PunishmentManager.reset_punishment db u reason .onDeactivate = (false, db)) := by
  refine ⟨?_, ?_, rfl, ?_⟩
  · intro h
    simp [PunishmentManager.reset_punishment, h]
  · intro p hp
    simp only [PunishmentManager.reset_punishment, hp]
    exact ⟨trivial, deactivate_punishment_clears u reason⟩
  · intro p hp
    simp [PunishmentManager.reset_punishment, hp]

/-- Witness for C8 at a concrete input: the empty store has no active
punishment for "user1", so the fault-free reset returns True and leaves
the store unchanged. -/
theorem reset_punishment_spec_witness :
    PunishmentManager.reset_punishment ⟨[], [], [], 1, 1⟩ "user1" none .nofault =
      (true, (⟨[], [], [], 1, 1⟩ : DB)) :=
  (reset_punishment_spec ⟨[], [], [], 1, 1⟩ "user1" none).1 rfl

theorem lookupStats_map_applyStats (l : List StatsRow) (st : UserStats) (s0 : StatsRow)
    (h : lookupStats l st.user_id = some s0) :
    lookupStats (l.map (fun s => if s.user_id == st.user_id then applyStats st s else s))
        st.user_id = some (applyStats st s0) := by
  induction l with
  | nil => exact absurd h (by simp [lookupStats])
  | cons a l ih =>
    simp only [lookupStats] at h
    by_cases ha : (a.user_id == st.user_id) = true
    · rw [if_pos ha] at h
      obtain rfl : a = s0 := by injection h
      have ha2 : ((applyStats st a).user_id == st.user_id) = true := ha
      simp only [List.map_cons, if_pos ha, lookupStats, if_pos ha2]
    · rw [if_neg ha] at h
      have ha2 : ¬ (a.user_id == st.user_id) = true := ha
      simp only [List.map_cons, if_neg ha, lookupStats, if_neg ha2]
      exact ih h

theorem lookupStats_user_id :
    ∀ {l : List StatsRow} {u : String} {s0 : StatsRow},
      lookupStats l u = some s0 → s0.user_id = u := by
  intro l
  induction l with
  | nil => intro u s0 h; exact absurd h (by simp [lookupStats])
  | cons a l ih =>
    intro u s0 h
    simp only [lookupStats] at h
    by_cases ha : (a.user_id == u) = true
    · rw [if_pos ha] at h
      obtain rfl : a = s0 := by injection h
      exact eq_of_beq ha
    · rw [if_neg ha] at h
      exact ih h

theorem get_user_stats_some_elim {db : DB} {u : String} {st : UserStats}
    (h : db.get_user_stats u = some st) :
    ∃ s0, lookupStats db.stats u = some s0 ∧
      st = ⟨s0.user_id, s0.username, s0.total_data_usage, s0.total_requests,
            s0.punishment_level, s0.cooldown_days, s0.request_limit⟩ ∧
      s0.user_id = u := by
  simp only [DB.get_user_stats, Option.map_eq_some'] at h
  obtain ⟨s0, hs0, hproj⟩ := h
  exact ⟨s0, hs0, hproj.symm, lookupStats_user_id hs0⟩

theorem get_user_stats_user_id {db : DB} {u : String} {st : UserStats}
    (h : db.get_user_stats u = some st) : st.user_id = u := by
  obtain ⟨s0, _, hst, hu⟩ := get_user_stats_some_elim h
  rw [hst]
  exact hu

theorem get_user_stats_save {db : DB} {u : String} {st st2 : UserStats}
    (h : db.get_user_stats u = some st) (hu2 : st2.user_id = u) :
    (db.save_user_stats st2).get_user_stats u = some st2 := by
  obtain ⟨s0, hs0, hst, hu⟩ := get_user_stats_some_elim h
  have hfind : lookupStats db.stats st2.user_id = some s0 := by
    rw [hu2]; exact hs0
  have hmap := lookupStats_map_applyStats db.stats st2 s0 hfind
  simp only [DB.save_user_stats, DB.get_user_stats]
  rw [← hu2, hmap]
  simp only [Option.map_some']
  obtain ⟨u2, un2, td2, tr2, pl2, cd2, rl2⟩ := st2
  simp only [applyStats] at hu2 ⊢
  simp_all

/-- Stats reads are unaffected by the bare punishment INSERT of
`DatabaseManager.create_punishment`. -/
theorem get_user_stats_create_punishment (db : DB) (user_id : String) (level : ℤ)
    (sd ed cd rr du : ℤ) (ia : Bool) (reason : Option String) (u : String) :
    (db.create_punishment user_id level sd ed cd rr du ia reason).2.get_user_stats u
      = db.get_user_stats u := rfl

/-- C7: `PunishmentManager.create_punishment` persists
`request_limit = max(5, limit - limit * reduction // 100)` (together
with the new level and cooldown) for the user's stats row; the result
of that formula is never below 5; and at limit 10 any reduction whose
computed limit falls below 5 yields exactly 5. -/
theorem create_punishment_updates_request_limit (db : DB) (u : String)
    (level sd ed cd r du : ℤ) (reason : String) (st : UserStats)
    (h : db.get_user_stats u = some st) :
    ((PunishmentManager.create_punishment db u level sd ed cd r du reason).2.get_user_stats u
        = some { st with
                 punishment_level := level
                 cooldown_days := cd
                 request_limit :=
                   max 5 (st.request_limit - (st.request_limit * r).fdiv 100) }) ∧
      (∀ L q : ℤ, 5 ≤ max 5 (L - (L * q).fdiv 100)) ∧
      (∀ q : ℤ, 10 - (10 * q).fdiv 100 < 5 →
        max 5 (10 - (10 * q).fdiv 100) = 5) := by
  refine ⟨?_, fun L q => le_max_left _ _, fun q hq => max_eq_left hq.le⟩
  simp only [PunishmentManager.create_punishment, h]
  rw [get_user_stats_create_punishment]
  have hu := get_user_stats_user_id h
  exact get_user_stats_save h hu

/-- Witness for C7 at a concrete input: a store whose single stats row
has request limit 10; a 60 percent reduction computes 10 - 6 = 4 < 5,
and the persisted limit is exactly 5. -/
theorem create_punishment_updates_request_limit_witness :
    ((PunishmentManager.create_punishment
          ⟨[], [], [⟨"user1", "alice", 0, 0, 0, 0, 10, none, none⟩], 1, 1⟩
          "user1" 2 0 5 5 60 0 "manual").2.get_user_stats "user1"
        = some ⟨"user1", "alice", 0, 0, 2, 5, 5⟩) ∧
      10 - ((10 : ℤ) * 60).fdiv 100 < 5 ∧
      max 5 (10 - ((10 : ℤ) * 60).fdiv 100) = 5 := by
  have h := create_punishment_updates_request_limit
    ⟨[], [], [⟨"user1", "alice", 0, 0, 0, 0, 10, none, none⟩], 1, 1⟩
    "user1" 2 0 5 5 60 0 "manual" ⟨"user1", "alice", 0, 0, 0, 0, 10⟩ rfl
  refine ⟨?_, by decide, h.2.2 60 (by decide)⟩
  rw [h.1]
  decide

/-- A store holding exactly one punishment row, active, for "user1"
(id 1, MILD); the next punishment id is 2. -/
def dbOneActive : DB :=
  ⟨[⟨1, "user1", 2, 0, 5, 5, -5, 0, true, none⟩], [], [], 2, 1⟩

/-- C3 (failing input): starting from a store where "user1" already has
one active punishment, `DatabaseManager.create_punishment` — the insert
path used by `PunishmentManager` — inserts a second active row without
deactivating the first, leaving TWO active punishments for the user;
`DatabaseManager.add_punishment`, by contrast, deactivates the prior
row and leaves exactly one active punishment, the newly inserted one
(id 2). -/
theorem create_punishment_leaves_two_active :
    ((dbOneActive.create_punishment "user1" 3 10 17 7 (-10) 0 true none).2.punishments.filter
          (activeFor "user1")).length = 2 ∧
      ((dbOneActive.add_punishment "user1" 3 10 17 7 (-10) 0 true none).2.punishments.filter
            (activeFor "user1")).map PunishmentRow.id = [2] := by
  decide

/-- A store whose single stats row for "user1" has request limit 100. -/
def dbLimit100 : DB :=
  ⟨[], [], [⟨"user1", "alice", 0, 0, 0, 0, 100, none, none⟩], 1, 1⟩

theorem calculate_punishment_none_current (cfg : PunishmentConfig) (u : String)
    (total now : ℤ) :
    calculate_punishment cfg u total none now =
      (if determine_punishment_level cfg total none = .NONE then none
       else some ⟨0, u, determine_punishment_level cfg total none, now,
          now + cfg.cooldownOf (determine_punishment_level cfg total none),
          cfg.cooldownOf (determine_punishment_level cfg total none),
          cfg.reductionOf (determine_punishment_level cfg total none),
          total, true⟩) := rfl

/-- C6 (failing input): with the default configuration and no prior
punishment, 1100 GB of usage yields a SEVERE punishment with
cooldown_days 7 and request_reduction -10 (the calculator half of the
claim holds); but feeding that reduction of -10 into
`PunishmentManager.create_punishment` with a persisted request limit of
100 produces `max(5, 100 - (100 * -10) // 100) = 110` — the limit
RISES to 110 instead of dropping to 90 as the claim states. -/
theorem severe_punishment_raises_request_limit :
    calculate_punishment PunishmentConfig.default "user1" (1100 * 2 ^ 30) none 0 =
        some ⟨0, "user1", .SEVERE, 0, 7, 7, -10, 1100 * 2 ^ 30, true⟩ ∧
      ((PunishmentManager.create_punishment dbLimit100 "user1" 3 0 7 7 (-10)
            (1100 * 2 ^ 30) "why").2.get_user_stats "user1").map UserStats.request_limit
        = some 110 := by
  constructor
  · have hdet : determine_punishment_level PunishmentConfig.default (1100 * 2 ^ 30) none =
        PunishmentLevel.SEVERE := by
      rw [show determine_punishment_level PunishmentConfig.default (1100 * 2 ^ 30) none =
          scanThresholds PunishmentConfig.default (1100 * 2 ^ 30) from rfl,
        scanThresholds_eq_highestExceeded]
      norm_num [highestExceededLevel, PunishmentConfig.default,
        ThresholdsConfig.default, bytesPerGb]
    rw [calculate_punishment_none_current, hdet]
    rfl
  · decide

/-- C9: `current_request_limit` is `max(0, 100 - request_reduction)`
exactly when the user is punished (an active punishment whose end date
is in the future), and exactly 100 otherwise; the `UserStatus` read
model carries no persisted request-limit column, so the value is
independent of it by construction. -/
theorem current_request_limit_spec (s : UserStatus) (now : ℤ) :
    (s.is_punished now = true →
        ∃ p, s.current_punishment = some p ∧ p.is_active = true ∧ now < p.end_date ∧
          s.current_request_limit now = max 0 (100 - p.request_reduction)) ∧
      (s.is_punished now = false → s.current_request_limit now = 100) := by
  constructor
  · intro h
    have h0 := h
    cases hp : s.current_punishment with
    | none => exact absurd h (by simp only [UserStatus.is_punished, hp]; decide)
    | some p =>
      simp only [UserStatus.is_punished, hp, Bool.and_eq_true, decide_eq_true_eq] at h
      refine ⟨p, rfl, h.1, h.2, ?_⟩
      simp only [UserStatus.current_request_limit, hp]
      rw [if_pos h0]
  · intro h
    cases hp : s.current_punishment with
    | none => simp [UserStatus.current_request_limit, hp]
    | some p =>
      simp only [UserStatus.current_request_limit, hp]
      rw [if_neg (by simp [h])]

/-- A punished status: active punishment ending at time 10 with
request_reduction 20. -/
def statusPunished : UserStatus :=
  ⟨"u", 0, 0, some ⟨1, "u", 3, 0, 10, 7, 20, 0, true, none⟩, none⟩

/-- Witness for C9 at a concrete input: the status above is punished at
time 0, and its current request limit is 100 - 20 = 80. -/
theorem current_request_limit_spec_witness :
    statusPunished.is_punished 0 = true ∧
      ∃ p, statusPunished.current_punishment = some p ∧ p.is_active = true ∧
        (0 : ℤ) < p.end_date ∧
        statusPunished.current_request_limit 0 = max 0 (100 - p.request_reduction) :=
  ⟨by decide, (current_request_limit_spec statusPunished 0).1 (by decide)⟩

theorem add_request_row_requests (db : DB) (r : RequestRow) :
    (db.add_request r).2.requests =
      db.requests ++ [⟨db.next_request_id, r.user_id, r.media_id, r.media_type,
        r.request_date, r.size_bytes, r.status⟩] := by
  simp only [DB.add_request]
  cases hl : lookupStats db.stats r.user_id <;> simp [hl]

theorem save_user_stats_requests (db : DB) (st : UserStats) :
    (db.save_user_stats st).requests = db.requests := rfl

/-- C10: `UserManager.add_request` raises
`ValueError("User has active punishment")` — leaving the store, its
requests and its stats untouched — whenever the user has an active
punishment record; without one it inserts the request and returns a
request object carrying the database-assigned id. -/
theorem add_request_spec (db : DB) (u mid mtype : String) (size now : ℤ) :
    (∀ p, db.get_active_punishment u = some p →
        UserManager.add_request db u mid mtype size now =
          (.error "User has active punishment", db)) ∧
      (db.get_active_punishment u = none →
        (UserManager.add_request db u mid mtype size now).1 =
            .ok ⟨db.next_request_id, u, mid, mtype, now, size, "pending"⟩ ∧
          (UserManager.add_request db u mid mtype size now).2.requests =
            db.requests ++ [⟨db.next_request_id, u, mid, mtype, now, size, "pending"⟩]) := by
  constructor
  · intro p hp
    have hact := get_active_punishment_is_active hp
    simp only [UserManager.add_request, hp]
    rw [if_pos hact]
  · intro h
    simp only [UserManager.add_request, h]
    constructor
    · rfl
    · simp only [UserManager.addRequestBody]
      cases hg : (DB.add_request db ⟨0, u, mid, mtype, now, size, "pending"⟩).2.get_user_stats u with
      | none =>
        simp only [hg]
        exact add_request_row_requests db ⟨0, u, mid, mtype, now, size, "pending"⟩
      | some st =>
        simp only [hg]
        rw [save_user_stats_requests]
        exact add_request_row_requests db ⟨0, u, mid, mtype, now, size, "pending"⟩

/-- Witness for C10 at a concrete input: in the empty store "u1" has no
active punishment, so the request is inserted with the
database-assigned id 1 and returned. -/
theorem add_request_spec_witness :
    (UserManager.add_request ⟨[], [], [], 1, 1⟩ "u1" "m1" "movie" 5 0).1 =
        .ok ⟨1, "u1", "m1", "movie", 0, 5, "pending"⟩ ∧
      (UserManager.add_request ⟨[], [], [], 1, 1⟩ "u1" "m1" "movie" 5 0).2.requests =
        [⟨1, "u1", "m1", "movie", 0, 5, "pending"⟩] :=
  (add_request_spec ⟨[], [], [], 1, 1⟩ "u1" "m1" "movie" 5 0).2 rfl

/-- Radarr movie record: the `sizeOnDisk` field is all the pipeline
reads (`api/radarr/models.py`). -/
structure Movie where
  size_on_disk : ℤ
deriving DecidableEq, Repr

/-- Sonarr series record: the `sizeOnDisk` field is all the pipeline
reads (`api/sonarr/models.py`). -/
structure Series where
  size_on_disk : ℤ
deriving DecidableEq, Repr

/-- `MediaIdentifiers` from `core/tracking/correlation.py`: the
cross-reference identifiers for one TMDB id (only `tvdb_id` is read by
the size pipeline). -/
structure MediaIdentifiers where
  tmdb_id : ℤ
  tvdb_id : Option ℤ
deriving DecidableEq, Repr

/-- The three upstream lookups `SizeCalculator` composes
(`core/tracking/calculator.py`): Radarr's `get_movie_by_tmdb_id`, the
correlation service's `get_tv_identifiers`, Sonarr's
`get_series_by_tvdb_id`. `Except.error` models a raised `APIError`
(carrying its message); `Option.none` models a not-found `None`. -/
structure SizeClients where
  get_movie_by_tmdb_id : ℤ → Except String (Option Movie)
  get_tv_identifiers : ℤ → Except String (Option MediaIdentifiers)
  get_series_by_tvdb_id : ℤ → Except String (Option Series)

/-- Embedding of `SizeCalculator.calculate_movie_request_size`
(`core/tracking/calculator.py` lines 36-52). -/
def calculate_movie_request_size (c : SizeClients) (tmdb_id : ℤ) : Except String ℤ :=
  match c.get_movie_by_tmdb_id tmdb_id with
  | .error e => .error e
  | .ok none => .error ("Movie with TMDB ID " ++ toString tmdb_id ++ " not found")
  | .ok (some movie) => .ok movie.size_on_disk

/-- Embedding of `SizeCalculator.calculate_series_request_size`
(`core/tracking/calculator.py` lines 54-75). The Python guard
`if not identifiers or not identifiers.tvdb_id` also treats a tvdb id
of 0 as missing (integer falsiness). -/
def calculate_series_request_size (c : SizeClients) (tmdb_id : ℤ) : Except String ℤ :=
  match c.get_tv_identifiers tmdb_id with
  | .error e => .error e
  | .ok none => .error ("Series with TMDB ID " ++ toString tmdb_id ++ " not found")
  | .ok (some identifiers) =>
    match identifiers.tvdb_id with
    | none => .error ("Series with TMDB ID " ++ toString tmdb_id ++ " not found")
    | some tvdb_id =>
      if tvdb_id = 0 then
        .error ("Series with TMDB ID " ++ toString tmdb_id ++ " not found")
      else
        match c.get_series_by_tvdb_id tvdb_id with
        | .error e => .error e
        | .ok none => .error ("Series with TVDB ID " ++ toString tvdb_id ++ " not found")
        | .ok (some series) => .ok series.size_on_disk

/-- Embedding of `SizeCalculator.calculate_request_size`
(`core/tracking/calculator.py` lines 77-95); `tmdb_id` is
`int(request.media_id)` (Overseerr always provides the TMDB id). -/
def calculate_request_size (c : SizeClients) (media_type : String) (tmdb_id : ℤ) :
    Except String ℤ :=
  if media_type = "movie" then calculate_movie_request_size c tmdb_id
  else if media_type = "tv" then calculate_series_request_size c tmdb_id
  else .error ("Unknown media type: " ++ media_type)

/-- One element of the Overseerr `results` array as consumed by
`calculate_user_requests_size`: `id`, `media.tmdbId`,
`media.mediaType`, `createdAt` (a timestamp), the numeric `status`. -/
structure OverseerrRequestData where
  id : ℤ
  tmdbId : ℤ
  mediaType : String
  createdAt : ℤ
  status : ℤ
deriving DecidableEq, Repr

/-- The `UserRequest` built for each fetched request before size
resolution: size 0 and the stringified Overseerr status
(`core/tracking/calculator.py` lines 126-135). The pydantic
`UserRequest` has the same fields as a `requests` table row, so
`RequestRow` doubles as its embedding. -/
def baseRequest (user_id : String) (rd : OverseerrRequestData) : RequestRow :=
  ⟨rd.id, user_id, toString rd.tmdbId, rd.mediaType, rd.createdAt, 0, toString rd.status⟩

/-- The per-request loop of `calculate_user_requests_size`
(`core/tracking/calculator.py` lines 125-146): on success record the
size and add it to the running total; on `APIError` keep size 0, store
the error text as the request's status, and continue with the rest. -/
def aggregateRequests (c : SizeClients) (user_id : String) :
    List OverseerrRequestData → ℤ → List RequestRow → ℤ × List RequestRow
  | [], total_size, processed => (total_size, processed)
  | rd :: rest, total_size, processed =>
    let request := baseRequest user_id rd
    match calculate_request_size c rd.mediaType rd.tmdbId with
    | .ok size =>
      aggregateRequests c user_id rest (total_size + size)
        (processed ++ [{ request with size_bytes := size }])
    | .error e =>
      aggregateRequests c user_id rest total_size
        (processed ++ [{ request with status := e }])

/-- Embedding of `SizeCalculator.calculate_user_requests_size`
(`core/tracking/calculator.py` lines 97-148), over the request list the
Overseerr client returned. -/
def calculate_user_requests_size (c : SizeClients) (user_id : String)
    (requests : List OverseerrRequestData) : ℤ × List RequestRow :=
  aggregateRequests c user_id requests 0 []

/-- The size of one request when its lookup chain succeeds. -/
def resolvedSize (c : SizeClients) (rd : OverseerrRequestData) : Option ℤ :=
  (calculate_request_size c rd.mediaType rd.tmdbId).toOption

/-- The annotated request the pipeline emits for one input. -/
def annotateRequest (c : SizeClients) (user_id : String)
    (rd : OverseerrRequestData) : RequestRow :=
  match calculate_request_size c rd.mediaType rd.tmdbId with
  | .ok size => { baseRequest user_id rd with size_bytes := size }
  | .error e => { baseRequest user_id rd with status := e }

theorem aggregateRequests_spec (c : SizeClients) (user_id : String)
    (l : List OverseerrRequestData) :
    ∀ (total : ℤ) (acc : List RequestRow),
      aggregateRequests c user_id l total acc =
        (total + (l.filterMap (resolvedSize c)).sum,
         acc ++ l.map (annotateRequest c user_id)) := by
  induction l with
  | nil => intro total acc; simp [aggregateRequests]
  | cons rd rest ih =>
    intro total acc
    simp only [aggregateRequests]
    cases hc : calculate_request_size c rd.mediaType rd.tmdbId with
    | ok size =>
      dsimp only
      rw [ih]
      have hres : resolvedSize c rd = some size := by
        simp [resolvedSize, hc, Except.toOption]
      simp [Prod.mk.injEq, List.filterMap_cons, hres, List.sum_cons, List.map_cons,
        annotateRequest, hc, List.append_assoc, add_assoc]
    | error e =>
      dsimp only
      rw [ih]
      have hres : resolvedSize c rd = none := by
        simp [resolvedSize, hc, Except.toOption]
      simp [Prod.mk.injEq, List.filterMap_cons, hres, List.map_cons, annotateRequest,
        hc, List.append_assoc]

/-- C4: the aggregation total counts exactly the successfully resolved
requests; every input yields an annotated output (failures neither
abort the batch nor contribute to the total, and carry the failure
text as their status with size 0); and when every lookup fails the
total is 0 while the output list, of the same length as the input, is
entirely failure-marked. -/
theorem calculate_user_requests_size_spec (c : SizeClients) (user_id : String)
    (requests : List OverseerrRequestData) :
    (calculate_user_requests_size c user_id requests).1 =
        (requests.filterMap (resolvedSize c)).sum ∧
      (calculate_user_requests_size c user_id requests).2 =
        requests.map (annotateRequest c user_id) ∧
      ((∀ rd ∈ requests, resolvedSize c rd = none) →
        (calculate_user_requests_size c user_id requests).1 = 0 ∧
          (calculate_user_requests_size c user_id requests).2.length = requests.length ∧
          ∀ q ∈ (calculate_user_requests_size c user_id requests).2,
            ∃ rd e, rd ∈ requests ∧
              calculate_request_size c rd.mediaType rd.tmdbId = .error e ∧
              q.status = e ∧ q.size_bytes = 0) := by
  have hgo := aggregateRequests_spec c user_id requests 0 []
  refine ⟨?_, ?_, ?_⟩
  · rw [calculate_user_requests_size, hgo]
    simp
  · rw [calculate_user_requests_size, hgo]
    simp
  · intro hall
    have hfm : requests.filterMap (resolvedSize c) = [] := by
      rw [List.filterMap_eq_nil_iff]
      exact hall
    refine ⟨?_, ?_, ?_⟩
    · rw [calculate_user_requests_size, hgo]
      simp [hfm]
    · rw [calculate_user_requests_size, hgo]
      simp
    · intro q hq
      rw [calculate_user_requests_size, hgo] at hq
      simp only [List.nil_append, List.mem_map] at hq
      obtain ⟨rd, hrd, hq⟩ := hq
      have hnone := hall rd hrd
      simp only [resolvedSize, Except.toOption] at hnone
      cases hc : calculate_request_size c rd.mediaType rd.tmdbId with
      | ok size => rw [hc] at hnone; exact absurd hnone (by simp)
      | error e =>
        refine ⟨rd, e, hrd, hc, ?_, ?_⟩
        · rw [← hq]
          simp [annotateRequest, hc]
        · rw [← hq]
          simp [annotateRequest, hc, baseRequest]

/-- Clients whose every lookup reports not-found, so every size
resolution fails with an `APIError`. -/
def failingClients : SizeClients :=
  ⟨fun _ => .ok none, fun _ => .ok none, fun _ => .ok none⟩

/-- Witness for C4 at a concrete input: a single movie request against
the all-failing clients yields total 0 and one failure-marked entry. -/
theorem calculate_user_requests_size_spec_witness :
    (calculate_user_requests_size failingClients "u1" [⟨1, 7, "movie", 0, 2⟩]).1 = 0 ∧
      (calculate_user_requests_size failingClients "u1" [⟨1, 7, "movie", 0, 2⟩]).2.length
        = 1 ∧
      ∀ q ∈ (calculate_user_requests_size failingClients "u1" [⟨1, 7, "movie", 0, 2⟩]).2,
        ∃ rd e, rd ∈ [(⟨1, 7, "movie", 0, 2⟩ : OverseerrRequestData)] ∧
          calculate_request_size failingClients rd.mediaType rd.tmdbId = .error e ∧
          q.status = e ∧ q.size_bytes = 0 := by
  have h := (calculate_user_requests_size_spec failingClients "u1"
    [⟨1, 7, "movie", 0, 2⟩]).2.2 (by decide)
  simpa using h

/-- One page of the Overseerr requests endpoint as read by
`get_all_user_requests`: the `results` array and the response's
`pageSize` field (`response.get("pageSize", 20)` — absent means 20). -/
structure BrokerPage (α : Type) where
  results : List α
  pageSize : Option ℕ

/-- The `while True` loop of `OverseerrClient.get_all_user_requests`
(`api/overseerr/client.py` lines 92-116): fetch page `page`; stop on an
empty page (without extending) or on a page shorter than `pageSize`
(after extending); otherwise continue with page + 1. The broker is the
per-page response function; alongside the accumulated requests the
embedding records the trace of page numbers fetched, in order. The
Python loop is unbounded; `fuel` bounds the embedded recursion and the
theorems hold for every sufficient fuel. -/
def getAllLoop {α : Type} (broker : ℕ → BrokerPage α) :
    ℕ → ℕ → List α → List ℕ → List α × List ℕ
  | 0, _, all_requests, trace => (all_requests, trace)
  | fuel + 1, page, all_requests, trace =>
    let response := broker page
    let requests := response.results
    if requests.isEmpty then (all_requests, trace ++ [page])
    else if requests.length < response.pageSize.getD 20 then
      (all_requests ++ requests, trace ++ [page])
    else getAllLoop broker fuel (page + 1) (all_requests ++ requests) (trace ++ [page])

/-- Embedding of `OverseerrClient.get_all_user_requests`: start at
page 1 with an empty accumulator. -/
def get_all_user_requests {α : Type} (broker : ℕ → BrokerPage α) (fuel : ℕ) :
    List α × List ℕ :=
  getAllLoop broker fuel 1 [] []

theorem map_range_succ_shift {β : Type} (g : ℕ → β) (n : ℕ) :
    (List.range (n + 1)).map g = g 0 :: (List.range n).map (fun k => g (k + 1)) := by
  rw [List.range_succ_eq_map]
  simp [List.map_map, Function.comp_def, Nat.succ_eq_add_one]

theorem getAllLoop_pages {α : Type} (broker : ℕ → BrokerPage α) (ps : ℕ) :
    ∀ (N start fuel : ℕ) (acc : List α) (trace : List ℕ),
      (∀ i, start ≤ i → i < start + N →
        (broker i).results.length = ps ∧ (broker i).pageSize = some ps) →
      (broker (start + N)).results.length < ps →
      (broker (start + N)).pageSize = some ps →
      N + 1 ≤ fuel →
      getAllLoop broker fuel start acc trace =
        (acc ++ ((List.range (N + 1)).map (fun k => (broker (start + k)).results)).flatten,
         trace ++ (List.range (N + 1)).map (fun k => start + k)) := by
  intro N
  induction N with
  | zero =>
    intro start fuel acc trace _ hshort hps hfuel
    obtain ⟨f, rfl⟩ : ∃ f, fuel = f + 1 :=
      ⟨fuel - 1, (Nat.succ_pred_eq_of_pos hfuel).symm⟩
    simp only [Nat.add_zero] at hshort hps
    simp only [getAllLoop]
    rw [hps]
    have h1 : List.range 1 = [0] := rfl
    by_cases hempty : (broker start).results.isEmpty
    · rw [if_pos hempty]
      have hnil : (broker start).results = [] := List.isEmpty_iff.mp hempty
      simp [hnil, h1]
    · rw [if_neg hempty]
      rw [if_pos (by simpa using hshort)]
      refine Prod.ext ?_ ?_ <;> simp [h1]
  | succ N ih =>
    intro start fuel acc trace hfull hshort hps hfuel
    obtain ⟨f, rfl⟩ : ∃ f, fuel = f + 1 :=
      ⟨fuel - 1, (Nat.succ_pred_eq_of_pos (by omega)).symm⟩
    have hps0 : 0 < ps := by omega
    have hstart := hfull start (Nat.le_refl _) (by omega)
    simp only [getAllLoop]
    rw [hstart.2]
    have hne : ¬ (broker start).results.isEmpty := by
      rw [List.isEmpty_iff]
      intro hnil
      rw [hnil] at hstart
      simp at hstart
      omega
    rw [if_neg hne]
    rw [if_neg (by rw [hstart.1, Option.getD_some]; omega)]
    rw [ih (start + 1) f (acc ++ (broker start).results) (trace ++ [start])
      (fun i h1 h2 => hfull i (by omega) (by omega))
      (by rw [show start + 1 + N = start + (N + 1) by omega]; exact hshort)
      (by rw [show start + 1 + N = start + (N + 1) by omega]; exact hps)
      (by omega)]
    rw [Prod.mk.injEq]
    have hmap1 : (List.range (N + 1)).map (fun k => (broker (start + 1 + k)).results) =
        (List.range (N + 1)).map (fun k => (broker (start + (k + 1))).results) :=
      List.map_congr_left (fun k _ => by rw [show start + (k + 1) = start + 1 + k by omega])
    have hmap2 : (List.range (N + 1)).map (fun k => start + 1 + k) =
        (List.range (N + 1)).map (fun k => start + (k + 1)) :=
      List.map_congr_left (fun k _ => by omega)
    constructor
    · rw [map_range_succ_shift (fun k => (broker (start + k)).results) (N + 1),
        List.flatten_cons, List.append_assoc, hmap1]
      simp
    · rw [map_range_succ_shift (fun k => start + k) (N + 1), List.append_assoc,
        List.singleton_append, hmap2]
      simp

/-- C5: against a broker with N full pages (exactly `ps` items each)
followed by a short final page, `get_all_user_requests` returns the
concatenation of all N+1 pages and fetches exactly the pages
1, 2, ..., N+1 in that order — page N+1 only after page N, and N+1
fetches in total. -/
theorem get_all_user_requests_pages {α : Type} (broker : ℕ → BrokerPage α)
    (N ps fuel : ℕ)
    (hfull : ∀ i, 1 ≤ i → i ≤ N →
      (broker i).results.length = ps ∧ (broker i).pageSize = some ps)
    (hshort : (broker (N + 1)).results.length < ps)
    (hps : (broker (N + 1)).pageSize = some ps)
    (hfuel : N + 1 ≤ fuel) :
    get_all_user_requests broker fuel =
      (((List.range (N + 1)).map (fun k => (broker (1 + k)).results)).flatten,
       (List.range (N + 1)).map (fun k => 1 + k)) := by
  have h := getAllLoop_pages broker ps N 1 fuel [] []
    (fun i h1 h2 => hfull i h1 (by omega))
    (by rw [Nat.add_comm 1 N]; exact hshort)
    (by rw [Nat.add_comm 1 N]; exact hps)
    hfuel
  rw [get_all_user_requests, h]
  simp

/-- A broker with one full page of size 2 and a short second page. -/
def brokerTwoPages : ℕ → BrokerPage ℕ :=
  fun i => if i = 1 then ⟨[10, 11], some 2⟩ else ⟨[12], some 2⟩

/-- Witness for C5 at a concrete input: one full page then a short
page gives the three items in order and exactly the fetches [1, 2]. -/
theorem get_all_user_requests_pages_witness :
    get_all_user_requests brokerTwoPages 5 = ([10, 11, 12], [1, 2]) := by
  rw [get_all_user_requests_pages brokerTwoPages 1 2 5
    (fun i h1 h2 => by
      have h : i = 1 := Nat.le_antisymm h2 h1
      subst h
      exact ⟨rfl, rfl⟩)
    (by decide) (by decide) (by omega)]
  rfl

end Judgarr
